import Mathlib

/-!
Verification of the line-assembly pipeline of the stock-count exporter
(`exportador_txt_gui_xls_ou_postgres_ini_merged_weighted2.py`, with the
near-identical `Exportador_contagem_Ver2.0.py` variant for two helpers).

The embedding models Python scalar cell values as an inductive `Value`
(None, float NaN, integral float, non-integral float, int, str), Python
`str.strip` as trimming the classic ASCII whitespace characters, Python
`str(int)` as decimal digit rendering, and rows as association lists from
uppercase column names to values.  I/O (the audit-log append) is modelled
by an explicit success flag; the source wraps the write in a bare
`try`/`except: pass`, which the model renders as an outcome whose
`raised` component is always `false`.
-/

/-- ASCII whitespace stripped by the model of Python `str.strip` (space,
tab, newline, carriage return, vertical tab, form feed). -/
def isPySpace (c : Char) : Bool :=
  c == ' ' || c == '\t' || c == '\n' || c == '\r' || c == '\x0b' || c == '\x0c'

/-- Characters of a string after Python `.strip()`: leading and trailing
whitespace removed. -/
def pyStripList (l : List Char) : List Char :=
  ((l.dropWhile isPySpace).reverse.dropWhile isPySpace).reverse

/-- Model of Python `str.strip()`. -/
def pyStrip (s : String) : String :=
  String.mk (pyStripList s.data)

/-- Decimal digit `d` (`d < 10`) as a character. -/
def digitToChar (d : Nat) : Char := Char.ofNat (48 + d)

/-- Fuel-driven decimal rendering of a natural number (big-endian digit
list); with fuel at least the digit count it is the full decimal form. -/
def natReprFuel : Nat → Nat → List Char
  | 0, _ => []
  | fuel + 1, n =>
    if n < 10 then [digitToChar n]
    else natReprFuel fuel (n / 10) ++ [digitToChar (n % 10)]

/-- Model of Python `str` on a non-negative int (fuel `n + 1` always
covers the digit count of `n`). -/
def natRepr (n : Nat) : String := String.mk (natReprFuel (n + 1) n)

/-- Model of Python `str` on an int (sign, then decimal digits). -/
def intRepr : Int → String
  | Int.ofNat n => natRepr n
  | Int.negSucc n => "-" ++ natRepr (n + 1)

/-- Python scalar cell value as seen by `smart_str`: `None`, float NaN, a
float with zero fractional part, a non-integral float (sign, integer
part, fraction digits of its decimal text form), an int, or a string. -/
inductive Value where
  | vNone
  | vNan
  | vFloatInt (i : Int)
  | vFloatFrac (neg : Bool) (ip : Nat) (fp : List (Fin 10))
  | vInt (i : Int)
  | vStr (s : String)
  deriving DecidableEq

/-- Embedding of `smart_str` from the source: `None` and NaN map to the
empty string, an integral float renders as `str(int(x))`, a non-integral
float as its decimal text, and any other value as `str(x).strip()`. -/
def smartStr : Value → String
  | Value.vNone => ""
  | Value.vNan => ""
  | Value.vFloatInt i => intRepr i
  | Value.vFloatFrac neg ip fp =>
      (if neg then "-" else "") ++ natRepr ip ++ "." ++
        String.mk (fp.map fun d => digitToChar d.val)
  | Value.vInt i => pyStrip (intRepr i)
  | Value.vStr s => pyStrip s

/-- Embedding of `abbrev_label` from the source: empty name falls back to
`"VAL"`; otherwise `-` and space are mapped to `_`, the first
`_`-delimited segment is taken, stripped, uppercased, and truncated to
four characters. -/
def abbrevLabel (colname : String) : String :=
  if colname = "" then "VAL"
  else
    let replaced := colname.data.map fun c =>
      if c = '-' then '_' else if c = ' ' then '_' else c
    let seg0 := String.mk (replaced.takeWhile fun c => !(c == '_'))
    let seg := String.mk ((pyStrip seg0).data.map Char.toUpper)
    if seg.length ≤ 4 then seg else String.mk (seg.data.take 4)

/-- Digit characters of a string, in order (Python
`"".join(ch for ch in s if ch.isdigit())`). -/
def digitsOnly (s : String) : String := String.mk (s.data.filter Char.isDigit)

/-- Model of Python `str.rjust(w, c)`: left-pad to width `w`, returning
the string unchanged when already at least that wide. -/
def pyRjust (s : String) (w : Nat) (c : Char) : String :=
  if w ≤ s.length then s else String.mk (List.replicate (w - s.length) c ++ s.data)

/-- Embedding of `_ean13_fix_and_validate`: normalize, keep digits; more
than 13 digits is rejected as `(false, "")`, otherwise the digits are
left-padded with zeros to exactly 13. -/
def ean13FixAndValidate (v : Value) : Bool × String :=
  let s := smartStr v
  let digits := digitsOnly s
  if 13 < digits.length then (false, "")
  else (true, pyRjust digits 13 '0')

/-- Format configuration consumed by the pipeline (source: the
`opening/closing/pair_sep/label_sep` UI variables, `BASE_COL`,
`MANDATORY_PREFIX` from the INI, and the EAN-13 validation checkbox). -/
structure FormatConfig where
  opening : String
  closing : String
  pairSep : String
  labelSep : String
  baseCol : String
  mandatoryCols : List String
  validateEan13 : Bool
  deriving DecidableEq

/-- One entry of the column selection: column name, include flag, label
(source: `col_vars` / `label_vars`, in insertion order). -/
structure ColSel where
  name : String
  included : Bool
  label : String
  deriving DecidableEq

/-- A row: mapping from uppercase column name to scalar value. -/
abbrev Row := List (String × Value)

/-- Model of `row.get(col, "")`: first binding of the name, defaulting to
the empty string. -/
def rowGet (row : Row) (k : String) : Value :=
  match List.find? (fun p => p.1 == k) row with
  | some p => p.2
  | none => Value.vStr ""

/-- Model of Python `sep.join(parts)`. -/
def pyJoin (sep : String) : List String → String
  | [] => ""
  | [x] => x
  | x :: y :: xs => x ++ sep ++ pyJoin sep (y :: xs)

/-- One iteration of the `_build_extra_block` loop: for an included
column, the stripped label and normalized value give a fragment when the
value is non-empty (`label + label_sep + value`, or the bare value when
the stripped label is empty). -/
def extraPart (cfg : FormatConfig) (row : Row) (c : ColSel) : Option String :=
  if c.included then
    let label := pyStrip c.label
    let val := smartStr (rowGet row c.name)
    if val ≠ "" then
      if label ≠ "" then some (label ++ cfg.labelSep ++ val) else some val
    else none
  else none

/-- All fragments produced by the `_build_extra_block` loop, in selection
order. -/
def extraParts (cfg : FormatConfig) (sel : List ColSel) (row : Row) : List String :=
  sel.filterMap (extraPart cfg row)

/-- Embedding of `_build_extra_block`: join the fragments with the pair
separator and wrap in opening/closing, or the empty string when no
fragment was produced. -/
def buildExtraBlock (cfg : FormatConfig) (sel : List ColSel) (row : Row) : String :=
  let parts := extraParts cfg sel row
  if parts = [] then "" else cfg.opening ++ pyJoin cfg.pairSep parts ++ cfg.closing

/-- Rejected record captured by `_build_line` for an oversized barcode
(source keys `COD_IN`, `COD_EAN`, `DES_PRODUTO`, `LEN`). -/
structure RejRecord where
  codIn : String
  codEan : String
  desProduto : String
  len : Nat
  deriving DecidableEq

/-- Final description of `_build_line`: base text, plus the extra block
when non-empty, the concatenation stripped as a whole. -/
def descFinal (cfg : FormatConfig) (sel : List ColSel) (row : Row) : String :=
  let baseText := smartStr (rowGet row cfg.baseCol)
  let extra := buildExtraBlock cfg sel row
  if extra ≠ "" then pyStrip (baseText ++ " " ++ extra) else baseText

/-- Embedding of `_build_line`: normalize the hard-coded prefix columns
`COD_INTERNO` and `COD_EAN`; under validation an oversized barcode
appends one rejected record and yields no line; otherwise the line is
`cod_interno|cod_ean|description`. -/
def buildLine (cfg : FormatConfig) (sel : List ColSel) (row : Row)
    (oversized : List RejRecord) : Option String × List RejRecord :=
  let codInterno := smartStr (rowGet row "COD_INTERNO")
  let rawEan := rowGet row "COD_EAN"
  if cfg.validateEan13 then
    let fix := ean13FixAndValidate rawEan
    if fix.1 then
      (some (codInterno ++ "|" ++ fix.2 ++ "|" ++ descFinal cfg sel row), oversized)
    else
      (none,
        oversized ++ [RejRecord.mk codInterno (smartStr rawEan)
          (smartStr (rowGet row cfg.baseCol)) (digitsOnly (smartStr rawEan)).length])
  else
    (some (codInterno ++ "|" ++ smartStr rawEan ++ "|" ++ descFinal cfg sel row), oversized)

/-- The per-row loop of `on_preview` / `on_save`: accumulate emitted
lines and thread the rejected-record list through `_build_line`. -/
def processRowsAux (cfg : FormatConfig) (sel : List ColSel) :
    List Row → List String × List RejRecord → List String × List RejRecord
  | [], acc => acc
  | r :: rest, acc =>
    match buildLine cfg sel r acc.2 with
    | (some l, ov2) => processRowsAux cfg sel rest (acc.1 ++ [l], ov2)
    | (none, ov2) => processRowsAux cfg sel rest (acc.1, ov2)

/-- A full pass over the dataset starting from the reset state. -/
def processRows (cfg : FormatConfig) (sel : List ColSel) (rows : List Row) :
    List String × List RejRecord :=
  processRowsAux cfg sel rows ([], [])

/-- Model of `str(x).replace("\n", " ")` used on the logged description. -/
def replaceNewlines (s : String) : String :=
  String.mk (s.data.map fun c => if c = '\n' then ' ' else c)

/-- One tab-delimited data line of the audit log (source loop body of
`_write_ean13_log`). -/
def logRecordLine (rec : RejRecord) : String :=
  rec.codIn ++ "\t" ++ rec.codEan ++ "\t" ++ replaceNewlines rec.desProduto ++ "\t" ++
    natRepr rec.len ++ "\n"

/-- The full block appended by `_write_ean13_log`: timestamped header,
column header, one line per record, trailing blank line. -/
def logBlock (ts ctx : String) (recs : List RejRecord) : String :=
  "[" ++ ts ++ "] " ++ ctx ++ " - Itens com EAN > 13 dígitos: " ++
    natRepr recs.length ++ "\n" ++
    "COD_INTERNO\tCOD_EAN\tDES_PRODUTO\tLEN\n" ++
    String.join (recs.map logRecordLine) ++ "\n"

/-- Outcome of one `_write_ean13_log` call: the content appended to the
audit file (when the write succeeded) and whether an exception propagates
to the caller. -/
structure LogOutcome where
  appended : Option String
  raised : Bool
  deriving DecidableEq

/-- Embedding of `_write_ean13_log`: no-op on an empty record list;
otherwise the block is appended when the destination is writable; the
source wraps the write in `try ... except Exception: pass`, so a failed
write is absorbed and nothing is raised in any branch. -/
def writeEan13Log (ts ctx : String) (recs : List RejRecord) (writeOk : Bool) : LogOutcome :=
  if recs = [] then LogOutcome.mk none false
  else if writeOk then LogOutcome.mk (some (logBlock ts ctx recs)) false
  else LogOutcome.mk none false

/-- The flush step after a pass: the computed lines and the rejected
records are not touched by the log write; only the log outcome is added. -/
def previewFlush (lines : List String) (recs : List RejRecord) (ts ctx : String)
    (writeOk : Bool) : List String × List RejRecord × LogOutcome :=
  (lines, recs, writeEan13Log ts ctx recs writeOk)

/-- Modelled from the wording of claim C4 (not from the source): the line
shape the claim asserts, namely the normalized mandatory-prefix columns
in configured order joined with `|`, then `|`, then the description. -/
def claimedPrefixLine (cfg : FormatConfig) (sel : List ColSel) (row : Row) : String :=
  pyJoin "|" (cfg.mandatoryCols.map fun c => smartStr (rowGet row c)) ++ "|" ++
    descFinal cfg sel row

/-- Default format configuration of the source, validation off. -/
def cfgDefault : FormatConfig :=
  FormatConfig.mk "(" ")" " / " ": " "DES_PRODUTO" ["COD_INTERNO", "COD_EAN"] false

/-- Default format configuration with EAN-13 validation enabled. -/
def cfgValidate : FormatConfig :=
  FormatConfig.mk "(" ")" " / " ": " "DES_PRODUTO" ["COD_INTERNO", "COD_EAN"] true

/-- Row of end-to-end scenario A. -/
def rowA : Row :=
  [("COD_INTERNO", Value.vStr "123"), ("COD_EAN", Value.vStr "789"),
   ("DES_PRODUTO", Value.vStr "ADSTRIGENTE 387 FACE BEAUTIFUL"),
   ("DEPARTAMENTO", Value.vStr "GERAL"), ("QTD_ESTOQUE_ATUAL", Value.vFloatInt 3)]

/-- Column selection of end-to-end scenario A. -/
def selA : List ColSel :=
  [ColSel.mk "DEPARTAMENTO" true "DEP", ColSel.mk "QTD_ESTOQUE_ATUAL" true "QTD"]

/-- Configuration identical to the default except that only `COD_EAN` is
listed as a mandatory-prefix column. -/
def cfgOneCol : FormatConfig :=
  FormatConfig.mk "(" ")" " / " ": " "DES_PRODUTO" ["COD_EAN"] false

/-- Row whose barcode has 14 digits. -/
def row14 : Row :=
  [("COD_INTERNO", Value.vStr "55"), ("COD_EAN", Value.vStr "12345678901234"),
   ("DES_PRODUTO", Value.vStr "CREME XYZ")]

/-- Configuration whose opening bracket carries a leading space. -/
def cfgC9 : FormatConfig :=
  FormatConfig.mk " (" ")" " / " ": " "DES_PRODUTO" ["COD_INTERNO", "COD_EAN"] false

/-- Selection with a single included column and an empty label. -/
def selC9 : List ColSel := [ColSel.mk "DEPARTAMENTO" true ""]

/-- Row with no base-column binding (the base text normalizes to empty). -/
def rowC9 : Row := [("DEPARTAMENTO", Value.vStr "GERAL")]

/-- A character list has clean edges when neither its first nor its last
character is whitespace. -/
def cleanEdges (l : List Char) : Bool :=
  (match l.head? with
   | some c => !isPySpace c
   | none => true) &&
  (match l.getLast? with
   | some c => !isPySpace c
   | none => true)

/-! ## Helper lemmas on stripping and digit rendering -/

theorem cleanEdges_eq_true (l : List Char) :
    cleanEdges l = true ↔
      (∀ c, l.head? = some c → isPySpace c = false) ∧
      (∀ c, l.getLast? = some c → isPySpace c = false) := by
  unfold cleanEdges
  cases hh : l.head? <;> cases hg : l.getLast? <;>
    simp [hh, hg, Bool.and_eq_true, Bool.not_eq_true']

theorem head_dropWhile_not {α : Type} (p : α → Bool) (l : List α) {c : α}
    (h : (l.dropWhile p).head? = some c) : p c = false := by
  induction l with
  | nil => simp [List.dropWhile] at h
  | cons a t ih =>
    rw [List.dropWhile_cons] at h
    by_cases hp : p a = true
    · exact ih (by simpa [hp] using h)
    · rw [if_neg hp] at h
      simp only [List.head?_cons, Option.some.injEq] at h
      subst h
      simpa using hp

theorem dropWhile_eq_self_of_head {α : Type} (p : α → Bool) (l : List α)
    (h : ∀ c, l.head? = some c → p c = false) : l.dropWhile p = l := by
  cases l with
  | nil => rfl
  | cons a t =>
    rw [List.dropWhile_cons]
    simp [h a rfl]

theorem getLast_dropWhile_of_ne_nil {α : Type} (p : α → Bool) (l : List α)
    (h : l.dropWhile p ≠ []) : (l.dropWhile p).getLast? = l.getLast? := by
  induction l with
  | nil => simp [List.dropWhile] at h
  | cons a t ih =>
    rw [List.dropWhile_cons] at h ⊢
    by_cases hp : p a = true
    · rw [if_pos hp] at h ⊢
      have ht : t ≠ [] := by
        intro he
        subst he
        simp [List.dropWhile] at h
      rw [ih h]
      cases t with
      | nil => exact absurd rfl ht
      | cons b t2 => rw [List.getLast?_cons_cons]
    · rw [if_neg hp]

theorem pyStripList_eq_self (l : List Char) (h : cleanEdges l = true) :
    pyStripList l = l := by
  obtain ⟨hh, hg⟩ := (cleanEdges_eq_true l).mp h
  unfold pyStripList
  rw [dropWhile_eq_self_of_head _ _ hh]
  rw [dropWhile_eq_self_of_head _ _ (by intro c hc; rw [List.head?_reverse] at hc; exact hg c hc)]
  exact List.reverse_reverse l

theorem cleanEdges_pyStripList (l : List Char) : cleanEdges (pyStripList l) = true := by
  unfold pyStripList
  rw [cleanEdges_eq_true]
  constructor
  · intro c hc
    rw [List.head?_reverse] at hc
    have hne : (l.dropWhile isPySpace).reverse.dropWhile isPySpace ≠ [] := by
      intro he
      rw [he] at hc
      simp at hc
    rw [getLast_dropWhile_of_ne_nil _ _ hne, List.getLast?_reverse] at hc
    exact head_dropWhile_not _ _ hc
  · intro c hc
    rw [List.getLast?_reverse] at hc
    exact head_dropWhile_not _ _ hc

theorem pyStrip_eq_self (s : String) (h : cleanEdges s.data = true) : pyStrip s = s :=
  String.ext (pyStripList_eq_self s.data h)

theorem cleanEdges_of_all_not (l : List Char) (h : ∀ c ∈ l, isPySpace c = false) :
    cleanEdges l = true := by
  rw [cleanEdges_eq_true]
  constructor
  · intro c hc
    exact h c (List.mem_of_mem_head? (by rw [hc]; rfl))
  · intro c hc
    exact h c (List.mem_of_getLast?_eq_some hc)

theorem digitToChar_not_space (d : Nat) (h : d < 10) :
    isPySpace (digitToChar d) = false := by
  interval_cases d <;> decide

theorem natReprFuel_not_space :
    ∀ (fuel n : Nat), ∀ c ∈ natReprFuel fuel n, isPySpace c = false := by
  intro fuel
  induction fuel with
  | zero => intro n c hc; simp [natReprFuel] at hc
  | succ f ih =>
    intro n c hc
    rw [natReprFuel] at hc
    by_cases hn : n < 10
    · rw [if_pos hn] at hc
      simp at hc
      subst hc
      exact digitToChar_not_space n hn
    · rw [if_neg hn] at hc
      rcases List.mem_append.mp hc with hc2 | hc2
      · exact ih (n / 10) c hc2
      · simp at hc2
        subst hc2
        exact digitToChar_not_space _ (Nat.mod_lt n (by norm_num))

theorem isDigit_not_pySpace {c : Char} (h : c.isDigit = true) : isPySpace c = false := by
  cases hb : isPySpace c
  · rfl
  · exfalso
    unfold isPySpace at hb
    simp only [Bool.or_eq_true, beq_iff_eq] at hb
    rcases hb with ((((h1 | h1) | h1) | h1) | h1) | h1 <;>
      (subst h1; exact absurd h (by decide))

theorem cleanEdges_natRepr (n : Nat) : cleanEdges (natRepr n).data = true :=
  cleanEdges_of_all_not _ (natReprFuel_not_space (n + 1) n)

theorem intRepr_not_space (i : Int) : ∀ c ∈ (intRepr i).data, isPySpace c = false := by
  cases i with
  | ofNat n => exact natReprFuel_not_space (n + 1) n
  | negSucc n =>
    intro c hc
    rw [intRepr, String.data_append] at hc
    rcases List.mem_append.mp hc with hc2 | hc2
    · simp at hc2
      subst hc2
      decide
    · exact natReprFuel_not_space _ _ c hc2

theorem smartStr_cleanEdges (v : Value) : cleanEdges (smartStr v).data = true := by
  cases v with
  | vNone => decide
  | vNan => decide
  | vFloatInt i => exact cleanEdges_of_all_not _ (intRepr_not_space i)
  | vFloatFrac neg ip fp =>
    apply cleanEdges_of_all_not
    intro c hc
    rw [smartStr, String.data_append, String.data_append, String.data_append] at hc
    rcases List.mem_append.mp hc with hc2 | hc2
    · rcases List.mem_append.mp hc2 with hc3 | hc3
      · rcases List.mem_append.mp hc3 with hc4 | hc4
        · cases neg with
          | true => simp at hc4; subst hc4; decide
          | false => simp at hc4
        · exact natReprFuel_not_space _ _ c hc4
      · simp at hc3
        subst hc3
        decide
    · simp only [String.data] at hc2
      rcases List.mem_map.mp hc2 with ⟨d, _, hd⟩
      subst hd
      exact digitToChar_not_space d.val d.isLt
  | vInt i => exact cleanEdges_pyStripList _
  | vStr s => exact cleanEdges_pyStripList _

theorem string_eq_empty_iff_length (s : String) : s = "" ↔ s.length = 0 := by
  constructor
  · rintro rfl; rfl
  · intro h
    apply String.ext
    exact List.length_eq_zero.mp h

theorem string_mk_length (l : List Char) : (String.mk l).length = l.length := rfl

theorem pyJoin_ne_empty (sep : String) (parts : List String) (h : parts ≠ [])
    (hall : ∀ x ∈ parts, x ≠ "") : pyJoin sep parts ≠ "" := by
  cases parts with
  | nil => exact absurd rfl h
  | cons x xs =>
    cases xs with
    | nil => exact hall x (by simp)
    | cons y ys =>
      rw [pyJoin]
      intro he
      have hx : x ≠ "" := hall x (by simp)
      have hlen := (string_eq_empty_iff_length _).mp he
      rw [String.length_append, String.length_append] at hlen
      exact hx ((string_eq_empty_iff_length x).mpr (by omega))

theorem ean13_accept (v : Value) (h : (digitsOnly (smartStr v)).length ≤ 13) :
    ean13FixAndValidate v = (true, pyRjust (digitsOnly (smartStr v)) 13 '0') := by
  unfold ean13FixAndValidate
  simp only []
  rw [if_neg (by omega)]

theorem pyRjust_length (s : String) (h : s.length ≤ 13) :
    (pyRjust s 13 '0').length = 13 := by
  unfold pyRjust
  by_cases h13 : 13 ≤ s.length
  · rw [if_pos h13]
    omega
  · rw [if_neg h13]
    rw [string_mk_length, List.length_append, List.length_replicate]
    have : s.data.length = s.length := rfl
    omega

/-! ## Claim theorems -/

/-- C1: for the scenario-A row, selection `DEP`/`QTD`, the default format
configuration and barcode validation disabled, the line builder returns
exactly `123|789|ADSTRIGENTE 387 FACE BEAUTIFUL (DEP: GERAL / QTD: 3)`
(the float `3.0` renders as `3`), with no rejected record. -/
theorem c1_scenario_a_line :
    buildLine cfgDefault selA rowA [] =
      (some "123|789|ADSTRIGENTE 387 FACE BEAUTIFUL (DEP: GERAL / QTD: 3)", [])
    ∧ smartStr (Value.vFloatInt 3) = "3" := by decide

/-- C2: every value whose normalized form has at most 13 digit characters
is accepted by the barcode canonicalizer, which returns the digit-only
string left-padded with zeros to exactly 13 characters; a value with no
digits yields thirteen zeros, and a 13-digit string is returned
unchanged. -/
theorem c2_barcode_pad :
    (∀ v : Value, (digitsOnly (smartStr v)).length ≤ 13 →
      ean13FixAndValidate v = (true, pyRjust (digitsOnly (smartStr v)) 13 '0')
        ∧ (pyRjust (digitsOnly (smartStr v)) 13 '0').length = 13)
    ∧ (∀ v : Value, digitsOnly (smartStr v) = "" →
      ean13FixAndValidate v = (true, "0000000000000"))
    ∧ (∀ s : String, (∀ c ∈ s.data, c.isDigit = true) → s.length = 13 →
      ean13FixAndValidate (Value.vStr s) = (true, s)) := by
  refine ⟨?_, ?_, ?_⟩
  · intro v h
    exact ⟨ean13_accept v h, pyRjust_length _ h⟩
  · intro v h
    rw [ean13_accept v (by rw [h]; decide), h]
    decide
  · intro s hall h13
    have hstr : smartStr (Value.vStr s) = s :=
      pyStrip_eq_self s (cleanEdges_of_all_not _ fun c hc => isDigit_not_pySpace (hall c hc))
    have hdig : digitsOnly s = s :=
      String.ext (List.filter_eq_self.mpr hall)
    rw [ean13_accept (Value.vStr s) (by rw [hstr, hdig]; omega)]
    rw [hstr, hdig]
    unfold pyRjust
    rw [if_pos (by omega)]

/-- Witness for C2: `789` pads to thirteen characters, a digit-free value
yields thirteen zeros, and the 13-digit string `4012345678901` is
returned unchanged. -/
theorem c2_barcode_pad_witness :
    ean13FixAndValidate (Value.vStr "789") = (true, "0000000000789")
    ∧ ean13FixAndValidate Value.vNone = (true, "0000000000000")
    ∧ ean13FixAndValidate (Value.vStr "4012345678901") = (true, "4012345678901") := by
  refine ⟨?_, ?_, ?_⟩
  · rw [(c2_barcode_pad.1 (Value.vStr "789") (by decide)).1]
    decide
  · exact c2_barcode_pad.2.1 Value.vNone (by decide)
  · exact c2_barcode_pad.2.2 "4012345678901" (by decide) (by decide)

/-- C6: a string with no leading or trailing whitespace normalizes to
itself, and consequently normalization is idempotent: feeding any
normalization result back in as a string input returns it unchanged. -/
theorem c6_normalize_idempotent :
    (∀ s : String, cleanEdges s.data = true → smartStr (Value.vStr s) = s)
    ∧ ∀ v : Value, smartStr (Value.vStr (smartStr v)) = smartStr v := by
  constructor
  · intro s h
    exact pyStrip_eq_self s h
  · intro v
    exact pyStrip_eq_self _ (smartStr_cleanEdges v)

/-- Witness for C6: the clean string `ABC 12` is a fixed point of
normalization. -/
theorem c6_normalize_idempotent_witness :
    smartStr (Value.vStr "ABC 12") = "ABC 12" :=
  c6_normalize_idempotent.1 "ABC 12" (by decide)

/-- C3: with validation enabled, a row whose barcode normalizes to more
than 13 digits makes the canonicalizer return `(false, "")`, the line
builder emit no line while appending exactly one rejected record carrying
the normalized internal code, the normalized raw barcode, the base-column
text and the digit count, and the pass continue with the remaining rows. -/
theorem c3_oversized_reject :
    ∀ (cfg : FormatConfig) (sel : List ColSel) (row : Row) (lines : List String)
      (ov : List RejRecord) (rest : List Row),
      cfg.validateEan13 = true →
      13 < (digitsOnly (smartStr (rowGet row "COD_EAN"))).length →
      ean13FixAndValidate (rowGet row "COD_EAN") = (false, "")
      ∧ buildLine cfg sel row ov = (none, ov ++
          [RejRecord.mk (smartStr (rowGet row "COD_INTERNO"))
            (smartStr (rowGet row "COD_EAN")) (smartStr (rowGet row cfg.baseCol))
            (digitsOnly (smartStr (rowGet row "COD_EAN"))).length])
      ∧ processRowsAux cfg sel (row :: rest) (lines, ov) =
          processRowsAux cfg sel rest (lines, ov ++
            [RejRecord.mk (smartStr (rowGet row "COD_INTERNO"))
              (smartStr (rowGet row "COD_EAN")) (smartStr (rowGet row cfg.baseCol))
              (digitsOnly (smartStr (rowGet row "COD_EAN"))).length]) := by
  intro cfg sel row lines ov rest hval hlen
  have he : ean13FixAndValidate (rowGet row "COD_EAN") = (false, "") := by
    unfold ean13FixAndValidate
    simp only []
    rw [if_pos hlen]
  have hb : buildLine cfg sel row ov = (none, ov ++
      [RejRecord.mk (smartStr (rowGet row "COD_INTERNO"))
        (smartStr (rowGet row "COD_EAN")) (smartStr (rowGet row cfg.baseCol))
        (digitsOnly (smartStr (rowGet row "COD_EAN"))).length]) := by
    unfold buildLine
    rw [hval]
    simp [he]
  refine ⟨he, hb, ?_⟩
  rw [processRowsAux]
  simp only []
  rw [hb]

/-- Witness for C3 at a concrete 14-digit barcode with one further row. -/
theorem c3_oversized_reject_witness :
    ean13FixAndValidate (rowGet row14 "COD_EAN") = (false, "")
    ∧ buildLine cfgValidate selA row14 [] = (none,
        [RejRecord.mk (smartStr (rowGet row14 "COD_INTERNO"))
          (smartStr (rowGet row14 "COD_EAN")) (smartStr (rowGet row14 cfgValidate.baseCol))
          (digitsOnly (smartStr (rowGet row14 "COD_EAN"))).length])
    ∧ processRowsAux cfgValidate selA [row14, rowA] ([], []) =
        processRowsAux cfgValidate selA [rowA] ([],
          [RejRecord.mk (smartStr (rowGet row14 "COD_INTERNO"))
            (smartStr (rowGet row14 "COD_EAN")) (smartStr (rowGet row14 cfgValidate.baseCol))
            (digitsOnly (smartStr (rowGet row14 "COD_EAN"))).length]) := by
  have h := c3_oversized_reject cfgValidate selA row14 [] [] [rowA] (by decide) (by decide)
  exact ⟨h.1, by rw [h.2.1]; decide, h.2.2⟩

/-- Counterexample to C4: with the non-default mandatory-prefix
configuration listing only `COD_EAN`, the emitted line is not the
claimed prefix-joined form — the line builder ignores the configured
mandatory-prefix columns. -/
theorem c4_claim_false :
    (buildLine cfgOneCol selA rowA []).1 ≠ some (claimedPrefixLine cfgOneCol selA rowA)
    ∧ (buildLine cfgOneCol selA rowA []).1 = (buildLine cfgDefault selA rowA []).1 := by
  decide

/-- C4 amended: for every configuration (validation off), the emitted
line is always the normalized hard-coded `COD_INTERNO` and `COD_EAN`
columns followed by the description, independent of the configured
mandatory-prefix list; only for the default list does this coincide with
the claimed prefix-joined form. -/
theorem c4_fixed_cols :
    ∀ (cfg : FormatConfig) (sel : List ColSel) (row : Row) (ov : List RejRecord),
      cfg.validateEan13 = false →
      buildLine cfg sel row ov =
        (some (smartStr (rowGet row "COD_INTERNO") ++ "|" ++ smartStr (rowGet row "COD_EAN")
          ++ "|" ++ descFinal cfg sel row), ov)
      ∧ (∀ mc : List String,
          buildLine (FormatConfig.mk cfg.opening cfg.closing cfg.pairSep cfg.labelSep
            cfg.baseCol mc cfg.validateEan13) sel row ov = buildLine cfg sel row ov)
      ∧ (cfg.mandatoryCols = ["COD_INTERNO", "COD_EAN"] →
          claimedPrefixLine cfg sel row =
            smartStr (rowGet row "COD_INTERNO") ++ "|" ++ smartStr (rowGet row "COD_EAN")
              ++ "|" ++ descFinal cfg sel row) := by
  intro cfg sel row ov hval
  refine ⟨?_, ?_, ?_⟩
  · unfold buildLine
    rw [hval]
    simp
  · intro mc
    cases cfg
    rfl
  · intro hmc
    unfold claimedPrefixLine
    rw [hmc]
    simp [pyJoin]

/-- Witness for C4 amended at the default configuration and scenario-A
row. -/
theorem c4_fixed_cols_witness :
    buildLine cfgDefault selA rowA [] =
      (some (smartStr (rowGet rowA "COD_INTERNO") ++ "|" ++ smartStr (rowGet rowA "COD_EAN")
        ++ "|" ++ descFinal cfgDefault selA rowA), [])
    ∧ claimedPrefixLine cfgDefault selA rowA =
        smartStr (rowGet rowA "COD_INTERNO") ++ "|" ++ smartStr (rowGet rowA "COD_EAN")
          ++ "|" ++ descFinal cfgDefault selA rowA := by
  have h := c4_fixed_cols cfgDefault selA rowA [] (by decide)
  exact ⟨h.1, h.2.2 (by decide)⟩

theorem extraPart_eq_none_iff (cfg : FormatConfig) (row : Row) (c : ColSel) :
    extraPart cfg row c = none ↔
      (c.included = false ∨ smartStr (rowGet row c.name) = "") := by
  unfold extraPart
  cases hic : c.included
  · simp
  · simp only [if_true]
    by_cases hv : smartStr (rowGet row c.name) = ""
    · simp [hv]
    · by_cases hl : pyStrip c.label = "" <;> simp [hv, hl]

theorem mem_extraParts_ne_empty (cfg : FormatConfig) (sel : List ColSel) (row : Row) :
    ∀ x ∈ extraParts cfg sel row, x ≠ "" := by
  intro x hx
  unfold extraParts at hx
  rcases List.mem_filterMap.mp hx with ⟨c, _, he⟩
  unfold extraPart at he
  cases hic : c.included
  · rw [hic] at he
    simp at he
  · rw [hic] at he
    simp only [if_true] at he
    by_cases hv : smartStr (rowGet row c.name) = ""
    · simp [hv] at he
    · by_cases hl : pyStrip c.label = ""
      · simp [hv, hl] at he
        subst he
        exact hv
      · simp [hv, hl] at he
        subst he
        intro hcon
        apply hv
        have hlen := (string_eq_empty_iff_length _).mp hcon
        rw [String.length_append, String.length_append] at hlen
        exact (string_eq_empty_iff_length _).mpr (by omega)

/-- C5: the attribute block is empty exactly when no included column has
a non-empty normalized value (no empty bracket pair is ever emitted), and
whenever at least one fragment exists the block is the fragments joined
with the pair separator and wrapped in the configured opening and closing
strings. -/
theorem c5_block_empty_iff :
    ∀ (cfg : FormatConfig) (sel : List ColSel) (row : Row),
      (buildExtraBlock cfg sel row = "" ↔
        ∀ c ∈ sel, c.included = true → smartStr (rowGet row c.name) = "")
      ∧ (extraParts cfg sel row ≠ [] →
        buildExtraBlock cfg sel row =
          cfg.opening ++ pyJoin cfg.pairSep (extraParts cfg sel row) ++ cfg.closing) := by
  intro cfg sel row
  constructor
  · constructor
    · intro hb c hc hinc
      by_contra hv
      have hp : extraPart cfg row c ≠ none := by
        intro hnone
        rw [extraPart_eq_none_iff] at hnone
        rcases hnone with h1 | h1
        · simp [hinc] at h1
        · exact hv h1
      have hmem : extraParts cfg sel row ≠ [] := by
        intro hnil
        rw [extraParts, List.filterMap_eq_nil_iff] at hnil
        exact hp (hnil c hc)
      unfold buildExtraBlock at hb
      rw [if_neg hmem] at hb
      have hj : pyJoin cfg.pairSep (extraParts cfg sel row) ≠ "" :=
        pyJoin_ne_empty _ _ hmem (mem_extraParts_ne_empty cfg sel row)
      apply hj
      have hlen := (string_eq_empty_iff_length _).mp hb
      rw [String.length_append, String.length_append] at hlen
      exact (string_eq_empty_iff_length _).mpr (by omega)
    · intro hall
      have hnil : extraParts cfg sel row = [] := by
        rw [extraParts, List.filterMap_eq_nil_iff]
        intro c hc
        rw [extraPart_eq_none_iff]
        cases hic : c.included
        · exact Or.inl rfl
        · exact Or.inr (hall c hc hic)
      unfold buildExtraBlock
      rw [if_pos hnil]
  · intro hne
    unfold buildExtraBlock
    rw [if_neg hne]

/-- Witness for C5: with no matching values the block is empty, and on
the scenario-A row the block is the wrapped join of its fragments. -/
theorem c5_block_empty_iff_witness :
    buildExtraBlock cfgDefault selA [] = ""
    ∧ buildExtraBlock cfgDefault selA rowA =
        cfgDefault.opening ++ pyJoin cfgDefault.pairSep (extraParts cfgDefault selA rowA)
          ++ cfgDefault.closing := by
  constructor
  · exact (c5_block_empty_iff cfgDefault selA []).1.mpr (by decide)
  · exact (c5_block_empty_iff cfgDefault selA rowA).2 (by decide)

/-- C7: the rejection-log flush never propagates a failure — with an
unwritable destination nothing is appended, nothing is raised, and the
computed lines and rejected records are returned unchanged; with any
destination the flush never raises. -/
theorem c7_log_absorbs_failure :
    ∀ (lines : List String) (recs : List RejRecord) (ts ctx : String) (writeOk : Bool),
      (writeEan13Log ts ctx recs writeOk).raised = false
      ∧ (writeEan13Log ts ctx recs false).appended = none
      ∧ previewFlush lines recs ts ctx writeOk =
          (lines, recs, writeEan13Log ts ctx recs writeOk) := by
  intro lines recs ts ctx ok
  refine ⟨?_, ?_, rfl⟩
  · unfold writeEan13Log
    by_cases h : recs = []
    · rw [if_pos h]
    · rw [if_neg h]
      cases ok
      · rw [if_neg (by simp)]
      · rw [if_pos rfl]
  · unfold writeEan13Log
    by_cases h : recs = []
    · rw [if_pos h]
    · rw [if_neg h]
      rw [if_neg (by simp)]

/-- C8: an included column whose configured label is non-empty but
consists only of whitespace contributes the bare normalized value, with
no label-separator text. -/
theorem c8_ws_label_bare_value :
    ∀ (cfg : FormatConfig) (row : Row) (c : ColSel),
      c.included = true →
      c.label ≠ "" →
      (∀ ch ∈ c.label.data, isPySpace ch = true) →
      smartStr (rowGet row c.name) ≠ "" →
      extraPart cfg row c = some (smartStr (rowGet row c.name)) := by
  intro cfg row c hinc hne hws hval
  have hl : pyStrip c.label = "" := by
    apply String.ext
    show pyStripList c.label.data = []
    unfold pyStripList
    rw [List.dropWhile_eq_nil_iff.mpr hws]
    rfl
  unfold extraPart
  rw [hinc]
  simp [hval, hl]

/-- Witness for C8: a label of one space yields the bare value `GERAL`. -/
theorem c8_ws_label_bare_value_witness :
    extraPart cfgDefault rowC9 (ColSel.mk "DEPARTAMENTO" true " ") = some "GERAL" := by
  rw [c8_ws_label_bare_value cfgDefault rowC9 (ColSel.mk "DEPARTAMENTO" true " ")
    (by decide) (by decide) (by decide) (by decide)]
  decide

/-- Counterexample to C9: with an opening bracket that carries a leading
space, a row whose base text is empty and whose attribute block is
non-empty yields a final description different from the attribute block —
the whole-concatenation strip also eats the block's own edge whitespace. -/
theorem c9_claim_false :
    smartStr (rowGet rowC9 cfgC9.baseCol) = ""
    ∧ buildExtraBlock cfgC9 selC9 rowC9 ≠ ""
    ∧ descFinal cfgC9 selC9 rowC9 ≠ buildExtraBlock cfgC9 selC9 rowC9 := by decide

/-- C9 amended: when the base text is empty and the attribute block is
non-empty, the final description is the attribute block stripped of its
own leading and trailing whitespace (the builder strips the whole
concatenation); it equals the block exactly whenever the block has no
edge whitespace, as with the default opening and closing brackets. -/
theorem c9_desc_strip :
    ∀ (cfg : FormatConfig) (sel : List ColSel) (row : Row),
      smartStr (rowGet row cfg.baseCol) = "" →
      buildExtraBlock cfg sel row ≠ "" →
      descFinal cfg sel row = pyStrip (buildExtraBlock cfg sel row)
      ∧ (cleanEdges (buildExtraBlock cfg sel row).data = true →
          descFinal cfg sel row = buildExtraBlock cfg sel row) := by
  intro cfg sel row hbase hne
  have h1 : descFinal cfg sel row = pyStrip (buildExtraBlock cfg sel row) := by
    unfold descFinal
    simp only []
    rw [if_pos hne, hbase]
    apply String.ext
    show pyStripList ("" ++ " " ++ buildExtraBlock cfg sel row).data =
      pyStripList (buildExtraBlock cfg sel row).data
    rw [String.data_append, String.data_append]
    show pyStripList (' ' :: (buildExtraBlock cfg sel row).data) =
      pyStripList (buildExtraBlock cfg sel row).data
    unfold pyStripList
    rw [List.dropWhile_cons]
    rw [if_pos (by decide)]
  exact ⟨h1, fun hclean => h1.trans (pyStrip_eq_self _ hclean)⟩

/-- Witness for C9 amended: with the default brackets the description of
a base-empty row is exactly the attribute block. -/
theorem c9_desc_strip_witness :
    descFinal cfgDefault selC9 rowC9 = buildExtraBlock cfgDefault selC9 rowC9 := by
  exact (c9_desc_strip cfgDefault selC9 rowC9 (by decide) (by decide)).2 (by decide)

/-- Counterexample to C10: the label deriver also returns `VAL` for the
non-empty column name `val`, so `VAL` is not returned only for the
empty name. -/
theorem c10_claim_false : abbrevLabel "val" = "VAL" ∧ "val" ≠ "" := by decide

/-- C10 amended: a non-empty column name beginning with `_`, `-` or a
space derives the empty label, not the fallback `VAL`; the fallback
branch yields `VAL` for the empty name, but a non-empty name whose first
segment uppercases to `VAL` also derives `VAL`. -/
theorem c10_sep_leading :
    (∀ s : String, s ≠ "" →
      (s.data.head? = some '_' ∨ s.data.head? = some '-' ∨ s.data.head? = some ' ') →
      abbrevLabel s = "")
    ∧ abbrevLabel "" = "VAL"
    ∧ abbrevLabel "val" = "VAL" := by
  refine ⟨?_, by decide, by decide⟩
  intro s hne hsep
  unfold abbrevLabel
  rw [if_neg hne]
  cases hd : s.data with
  | nil => exact absurd (String.ext hd) hne
  | cons a t =>
    have ha : a = '_' ∨ a = '-' ∨ a = ' ' := by
      rcases hsep with h | h | h <;> rw [hd] at h <;> simp at h
      · exact Or.inl h
      · exact Or.inr (Or.inl h)
      · exact Or.inr (Or.inr h)
    rcases ha with rfl | rfl | rfl <;>
      simp [List.takeWhile_cons, pyStrip, pyStripList, List.dropWhile]

/-- Witness for C10 amended: the underscore-leading name derives the
empty label. -/
theorem c10_sep_leading_witness : abbrevLabel "_X" = "" :=
  c10_sep_leading.1 "_X" (by decide) (Or.inl (by decide))
